import Mathlib

/-!
Shallow embedding of the MEXC grid-trading strategy engine
(`src/strategy.py`, class `GridStrategy`) over exact rationals.

Modelling conventions:
* Python `float` values are idealised as `ℚ`; Python's `round` (banker's
  rounding, round-half-to-even) is modelled exactly by `pyRound`.
* The string level keys `f"{price:.8f}"` and the `"BUY_{level:.2f}_{n}"`
  order ids are modelled by their numeric content: `key8 p = pyRound (p*10^8)`
  and `OrderId.buyId (key2 level) n`; externally assigned ids are `OrderId.ext`.
  Equality of the Python strings coincides with equality of these values.
* Python dicts are association lists with dict semantics (`dictInsert`
  replaces in place on an existing key, otherwise appends; `dictGet`;
  `dictErase` removes the unique binding).
* `print` diagnostics are modelled as emitted `Msg` values (the formatted
  numeric payload is kept, the surrounding text dropped).
-/

set_option maxRecDepth 100000

attribute [local semireducible] Rat.mul Rat.inv Rat.add Rat.sub Rat.ofScientific

namespace MexcGrid

/-- Python's built-in `round` to an integer: nearest integer, ties to even. -/
def pyRound (x : ℚ) : ℤ :=
  let f : ℤ := ⌊x⌋
  let r : ℚ := x - (f : ℚ)
  if r < 1/2 then f
  else if 1/2 < r then f + 1
  else if f % 2 = 0 then f else f + 1

inductive OrderType where
  | BUY
  | SELL
deriving DecidableEq, Repr

inductive OrderStatus where
  | NEW
  | FILLED
  | CANCELED
deriving DecidableEq, Repr

/-- Order ids: `buyId k n` stands for the Python string `f"BUY_{level:.2f}_{n}"`
with `k = pyRound (level * 100)` and `n` the active-order count at creation;
`ext s` stands for any externally assigned id string. -/
inductive OrderId where
  | buyId : ℤ → ℕ → OrderId
  | ext : String → OrderId
deriving DecidableEq, Repr

/-- The `Order` dataclass of `strategy.py`. `level_key` holds
`key8` of the normalized level price (the `f"{...:.8f}"` string). -/
structure Order where
  id : OrderId
  symbol : String
  side : OrderType
  price : ℚ
  quantity : ℚ
  status : OrderStatus
  level_key : Option ℤ
deriving DecidableEq, Repr

/-- The `Position` dataclass of `strategy.py`. -/
structure Position where
  level_price : ℚ
  quantity : ℚ
  buy_price : ℚ
  tp_price : Option ℚ
  tp_order_id : Option OrderId
deriving DecidableEq, Repr

inductive GridMode where
  | percent
  | atr
deriving DecidableEq, Repr

inductive TpMode where
  | step
  | percent
deriving DecidableEq, Repr

inductive SizingMode where
  | linear
  | geometric
deriving DecidableEq, Repr

/-- The configuration fields of `config.json` read by `GridStrategy`. -/
structure Config where
  mode : GridMode
  step_percent : ℚ
  atr_window : ℕ
  atr_k : ℚ
  tick_size : ℚ
  qty_step : ℚ
  levels_below : ℕ
  levels_above : ℕ
  maker_buffer_frac : ℚ
  tp_mode : TpMode
  tp_percent : ℚ
  sizing_mode : SizingMode
  skew_strength : ℚ
  target_inventory_ratio : ℚ
  min_notional : ℚ
  quote_start : ℚ
  base_start_quote : ℚ
  compound : Bool
  dd_pause_frac : ℚ
  kill_switch_frac : ℚ
  symbol : String
deriving DecidableEq, Repr

/-- Diagnostics emitted by the engine (`print` lines / `actions["messages"]`). -/
inductive Msg where
  | pause : ℚ → Msg
  | kill : ℚ → Msg
  | placedBuy : ℚ → ℚ → Msg
  | unknownOrder : OrderId → Msg
  | buyFilled : ℚ → ℚ → ℚ → Msg
  | tpFilled : ℚ → ℚ → ℚ → Msg
deriving DecidableEq, Repr

section Dict

variable {κ : Type} {β : Type} [DecidableEq κ]

/-- Python `d[k]` / `k in d` on an insertion-ordered dict. -/
def dictGet (k : κ) : List (κ × β) → Option β
  | [] => none
  | e :: es => if e.1 = k then some e.2 else dictGet k es

/-- Python `d[k] = v`: replace in place if the key exists, else append. -/
def dictInsert (k : κ) (v : β) : List (κ × β) → List (κ × β)
  | [] => [(k, v)]
  | e :: es => if e.1 = k then (k, v) :: es else e :: dictInsert k v es

/-- Python `del d[k]`: drop the (unique) binding of `k`. -/
def dictErase (k : κ) : List (κ × β) → List (κ × β)
  | [] => []
  | e :: es => if e.1 = k then es else e :: dictErase k es

end Dict

/-- Python `l[-n:]` (note `l[-0:]` is the whole list). -/
def lastN (n : ℕ) (l : List ℚ) : List ℚ :=
  if n = 0 then l else l.drop (l.length - n)

/-- `key8 p` models the Python level-key string `f"{p:.8f}"`. -/
def key8 (p : ℚ) : ℤ := pyRound (p * 100000000)

/-- `key2 level` models the `{level:.2f}` part of a generated order id. -/
def key2 (p : ℚ) : ℤ := pyRound (p * 100)

/-- Mutable state of `GridStrategy` (its `__init__` fields). -/
structure GridStrategy where
  config : Config
  cash : ℚ
  base_holdings : ℚ
  active_orders : List (OrderId × Order)
  positions : List (ℤ × Position)
  total_pnl : ℚ
  realized_pnl : ℚ
  max_equity : ℚ
  max_drawdown : ℚ
  price_history : List ℚ
deriving DecidableEq, Repr

/-- `GridStrategy.__init__` (the 45000 is the hard-coded "approximate BTC price"). -/
def GridStrategy.init (cfg : Config) : GridStrategy :=
  { config := cfg
    cash := cfg.quote_start
    base_holdings := cfg.base_start_quote / 45000
    active_orders := []
    positions := []
    total_pnl := 0
    realized_pnl := 0
    max_equity := cfg.quote_start
    max_drawdown := 0
    price_history := [] }

/-- `normalize_price`: `round(price / tick_size) * tick_size`. -/
def normalize_price (cfg : Config) (price : ℚ) : ℚ :=
  (pyRound (price / cfg.tick_size) : ℚ) * cfg.tick_size

/-- `normalize_quantity`: `round(qty / qty_step) * qty_step`. -/
def normalize_quantity (cfg : Config) (qty : ℚ) : ℚ :=
  (pyRound (qty / cfg.qty_step) : ℚ) * cfg.qty_step

/-- The absolute consecutive differences `abs(p[i+1] - p[i])` of a list
(`zip(recent_prices[1:], recent_prices[:-1])` in the source). -/
def absDiffs (l : List ℚ) : List ℚ :=
  (l.tail.zip l.dropLast).map (fun pr => |pr.1 - pr.2|)

/-- `get_grid_step`. -/
def get_grid_step (s : GridStrategy) (current_price : ℚ) : ℚ :=
  match s.config.mode with
  | GridMode.percent => current_price * s.config.step_percent
  | GridMode.atr =>
    if s.price_history.length < s.config.atr_window then
      current_price * (4/1000)
    else
      let recent_prices := lastN s.config.atr_window s.price_history
      let high_low := absDiffs recent_prices
      let atr := if high_low.isEmpty then current_price * (4/1000)
                 else high_low.sum / (high_low.length : ℚ)
      atr * s.config.atr_k

/-- `calculate_position_size`. For `level_index` out of the geometric weight
range Python would raise `IndexError`; the claims never reach that case and
`(6/5)^level_index` is the weight wherever it is defined. -/
def calculate_position_size (s : GridStrategy) (level_index : ℕ) (current_price : ℚ) : ℚ :=
  let available_cash := s.cash * (9/10)
  let levels_below := s.config.levels_below
  let size_per_level :=
    match s.config.sizing_mode with
    | SizingMode.linear => available_cash / (levels_below : ℚ)
    | SizingMode.geometric =>
      let weights := (List.range levels_below).map (fun i => ((6:ℚ)/5) ^ i)
      (available_cash / weights.sum) * ((6:ℚ)/5) ^ level_index
  let current_equity := s.cash + s.base_holdings * current_price
  let inventory_ratio := (s.base_holdings * current_price) / current_equity
  let target_ratio := s.config.target_inventory_ratio
  if inventory_ratio < target_ratio then
    size_per_level * (1 + (target_ratio - inventory_ratio) * s.config.skew_strength)
  else
    size_per_level

/-- `can_place_buy` (the human-readable rejection reason is dropped;
only the boolean verdict is modelled). -/
def can_place_buy (s : GridStrategy) (level_price current_price : ℚ) : Bool :=
  let level_key := key8 (normalize_price s.config level_price)
  if (dictGet level_key s.positions).isSome then false
  else
    let maker_buffer := s.config.maker_buffer_frac
    let order_price_norm := normalize_price s.config (level_price * (1 - maker_buffer))
    if s.active_orders.any (fun e =>
        decide (e.2.side = OrderType.BUY) &&
        decide (|e.2.price - order_price_norm| < s.config.tick_size)) then false
    else
      let position_size := calculate_position_size s 0 current_price
      let quantity := normalize_quantity s.config (position_size / order_price_norm)
      if quantity * order_price_norm < s.config.min_notional then false
      else if s.cash < position_size then false
      else true

/-- `get_target_levels`. -/
def get_target_levels (s : GridStrategy) (current_price : ℚ) : List ℚ :=
  let step := get_grid_step s current_price
  ((List.range s.config.levels_below).map
      (fun i => current_price - ((i : ℚ) + 1) * step)) ++
  ((List.range s.config.levels_above).map
      (fun i => current_price + ((i : ℚ) + 1) * step))

/-- The order-placement loop of `step_book` (`for i, level in enumerate(...)`).
Returns the final state together with the `place_orders` and `messages` lists
accumulated in source order. -/
def placeLoop (current_price : ℚ) :
    GridStrategy → ℕ → List ℚ → GridStrategy × List Order × List Msg
  | s, _, [] => (s, [], [])
  | s, i, level :: rest =>
    if current_price ≤ level then
      placeLoop current_price s (i + 1) rest
    else if can_place_buy s level current_price then
      let maker_buffer := s.config.maker_buffer_frac
      let order_price := normalize_price s.config (level * (1 - maker_buffer))
      let position_size := calculate_position_size s i current_price
      let quantity := normalize_quantity s.config (position_size / order_price)
      let order_id := OrderId.buyId (key2 level) s.active_orders.length
      let o : Order :=
        { id := order_id
          symbol := s.config.symbol
          side := OrderType.BUY
          price := order_price
          quantity := quantity
          status := OrderStatus.NEW
          level_key := some (key8 (normalize_price s.config level)) }
      let s' := { s with active_orders := dictInsert order_id o s.active_orders }
      let r := placeLoop current_price s' (i + 1) rest
      (r.1, o :: r.2.1, Msg.placedBuy quantity order_price :: r.2.2)
    else
      placeLoop current_price s (i + 1) rest

/-- The action batch returned by `step_book`. -/
structure Actions where
  place_orders : List Order
  cancel_orders : List OrderId
  messages : List Msg
deriving DecidableEq, Repr

/-- `step_book(current_price, bid, ask)` (`bid` and `ask` are unused by the
source body). -/
def step_book (s : GridStrategy) (current_price bid ask : ℚ) : GridStrategy × Actions :=
  let hist0 := s.price_history ++ [current_price]
  let hist := if s.config.atr_window * 2 < hist0.length
              then lastN s.config.atr_window hist0 else hist0
  let s1 := { s with price_history := hist }
  let current_equity := s1.cash + s1.base_holdings * current_price
  let drawdown := (s1.max_equity - current_equity) / s1.max_equity
  if s1.config.dd_pause_frac < drawdown then
    (s1, ⟨[], [], [Msg.pause drawdown]⟩)
  else if s1.config.kill_switch_frac < drawdown then
    (s1, ⟨[], [], [Msg.kill drawdown]⟩)
  else
    let s2 := if s1.max_equity < current_equity
              then { s1 with max_equity := current_equity } else s1
    let levels := get_target_levels s2 current_price
    let r := placeLoop current_price s2 0 levels
    (r.1, ⟨r.2.1, [], r.2.2⟩)

/-- `_handle_buy_fill`. The in-place `order.status = FILLED` mutation is applied
by `on_order_filled` before calling this handler. -/
def handle_buy_fill (s : GridStrategy) (order : Order)
    (fill_price fill_quantity : ℚ) : GridStrategy × List Msg :=
  let cost := fill_price * fill_quantity
  let s' := { s with cash := s.cash - cost,
                     base_holdings := s.base_holdings + fill_quantity }
  let level_key := order.level_key.getD (key8 fill_price)
  let tp_raw :=
    match s'.config.tp_mode with
    | TpMode.step => fill_price + get_grid_step s' fill_price
    | TpMode.percent => fill_price * (1 + s'.config.tp_percent)
  let pos : Position :=
    { level_price := fill_price
      quantity := fill_quantity
      buy_price := fill_price
      tp_price := some (normalize_price s'.config tp_raw)
      tp_order_id := none }
  ({ s' with positions := dictInsert level_key pos s'.positions },
   [Msg.buyFilled fill_quantity fill_price (normalize_price s'.config tp_raw)])

/-- The position-lookup loop of `_handle_sell_fill`: first position whose
`tp_order_id` equals the filled order's id. -/
def findTp (oid : OrderId) : List (ℤ × Position) → Option (ℤ × Position)
  | [] => none
  | e :: es => if e.2.tp_order_id = some oid then some e else findTp oid es

/-- `_handle_sell_fill`. -/
def handle_sell_fill (s : GridStrategy) (order : Order)
    (fill_price fill_quantity : ℚ) : GridStrategy × List Msg :=
  match findTp order.id s.positions with
  | none => (s, [])
  | some e =>
    let profit := (fill_price - e.2.buy_price) * fill_quantity
    let s1 := { s with realized_pnl := s.realized_pnl + profit,
                       total_pnl := s.total_pnl + profit }
    let s2 := if s1.config.compound
              then { s1 with cash := s1.cash + fill_price * fill_quantity } else s1
    let s3 := { s2 with base_holdings := s2.base_holdings - fill_quantity }
    ({ s3 with positions := dictErase e.1 s3.positions },
     [Msg.tpFilled fill_quantity fill_price profit])

/-- `on_order_filled`. Returns the new state and the emitted diagnostics. -/
def on_order_filled (s : GridStrategy) (order_id : OrderId)
    (fill_price fill_quantity : ℚ) : GridStrategy × List Msg :=
  match dictGet order_id s.active_orders with
  | none => (s, [Msg.unknownOrder order_id])
  | some o =>
    let o' := { o with status := OrderStatus.FILLED }
    let sm := { s with active_orders := dictInsert order_id o' s.active_orders }
    let r := if o'.side = OrderType.BUY
             then handle_buy_fill sm o' fill_price fill_quantity
             else handle_sell_fill sm o' fill_price fill_quantity
    ({ r.1 with active_orders := dictErase order_id r.1.active_orders }, r.2)

/-- The snapshot returned by `get_status` (the `config` entry included). -/
structure Status where
  cash : ℚ
  base_holdings : ℚ
  equity : ℚ
  realized_pnl : ℚ
  total_pnl : ℚ
  max_equity : ℚ
  drawdown : ℚ
  active_orders : ℕ
  positions : ℕ
  config : Config
deriving DecidableEq, Repr

/-- `get_status` (equity uses the hard-coded "approximate price" 45000). -/
def get_status (s : GridStrategy) : Status :=
  let current_equity := s.cash + s.base_holdings * 45000
  { cash := s.cash
    base_holdings := s.base_holdings
    equity := current_equity
    realized_pnl := s.realized_pnl
    total_pnl := s.total_pnl
    max_equity := s.max_equity
    drawdown := (s.max_equity - current_equity) / s.max_equity
    active_orders := s.active_orders.length
    positions := s.positions.length
    config := s.config }

/-! Derived notions used by the verification below. -/

/-- Total base quantity recorded across all open positions. -/
def sumPositions (s : GridStrategy) : ℚ :=
  (s.positions.map (fun e => e.2.quantity)).sum

/-- State after one `on_order_filled` event `(orderId, fillPrice, fillQty)`. -/
def applyFill (s : GridStrategy) (f : OrderId × ℚ × ℚ) : GridStrategy :=
  (on_order_filled s f.1 f.2.1 f.2.2).1

/-- State after a sequence of `on_order_filled` events. -/
def applyFills : GridStrategy → List (OrderId × ℚ × ℚ) → GridStrategy
  | s, [] => s
  | s, f :: fs => applyFills (applyFill s f) fs

/-- A fill event is key-fresh in `s` when it is an unknown id, a SELL, or a
BUY whose effective level key is not yet occupied by a position. -/
def fillKeyFresh (s : GridStrategy) (f : OrderId × ℚ × ℚ) : Bool :=
  match dictGet f.1 s.active_orders with
  | none => true
  | some o =>
    decide (o.side = OrderType.SELL) ||
    decide (dictGet (o.level_key.getD (key8 f.2.1)) s.positions = none)

/-- Every fill event of the trace is key-fresh at the state it is applied to. -/
def freshTrace : GridStrategy → List (OrderId × ℚ × ℚ) → Bool
  | _, [] => true
  | s, f :: fs => fillKeyFresh s f && freshTrace (applyFill s f) fs

/-- Conservation shape of the engine state: base holdings equal the initial
holdings plus the quantity recorded in open positions. -/
def ConsInv (s : GridStrategy) : Prop :=
  s.base_holdings = s.config.base_start_quote / 45000 + sumPositions s

/-- No position carries a take-profit order id (the source never assigns one). -/
def TpNone (s : GridStrategy) : Prop :=
  ∀ e ∈ s.positions, e.2.tp_order_id = none

/-- Any two distinct active BUY orders rest at normalized prices at least one
tick apart. -/
def BuySep (s : GridStrategy) : Prop :=
  s.active_orders.Pairwise (fun e1 e2 =>
    e1.2.side = OrderType.BUY → e2.2.side = OrderType.BUY →
    s.config.tick_size ≤ |e1.2.price - e2.2.price|)

/-! Concrete configurations and states used by the counterexamples and
witnesses. -/

/-- Config with pause threshold 5% and kill-switch threshold 30%. -/
def cfgC1 : Config :=
  { mode := GridMode.percent, step_percent := 1/250, atr_window := 10, atr_k := 1
    tick_size := 1, qty_step := 1/1000, levels_below := 3, levels_above := 0
    maker_buffer_frac := 1/2000, tp_mode := TpMode.step, tp_percent := 1/100
    sizing_mode := SizingMode.linear, skew_strength := 0
    target_inventory_ratio := 0, min_notional := 1
    quote_start := 10000, base_start_quote := 0, compound := true
    dd_pause_frac := 1/20, kill_switch_frac := 3/10, symbol := "BTCUSDT" }

/-- A state in critical drawdown: high-water mark 10000, equity 5000 at
price 100, with one open position and one active order to liquidate. -/
def sC1 : GridStrategy :=
  { config := cfgC1
    cash := 5000
    base_holdings := 0
    active_orders :=
      [(OrderId.ext "A",
        { id := OrderId.ext "A", symbol := "BTCUSDT", side := OrderType.BUY
          price := 90, quantity := 1, status := OrderStatus.NEW
          level_key := some (key8 90) })]
    positions :=
      [(key8 95,
        { level_price := 95, quantity := 1, buy_price := 95
          tp_price := some 96, tp_order_id := none })]
    total_pnl := 0
    realized_pnl := 0
    max_equity := 10000
    max_drawdown := 0
    price_history := [] }

/-- Config under which an admitted buy order's own fill overdraws cash:
rounding `9/3 = 3` up to the quantity step 4 makes the fill cost 12 > 10. -/
def cfgC2 : Config :=
  { mode := GridMode.percent, step_percent := 1/4, atr_window := 10, atr_k := 1
    tick_size := 1, qty_step := 4, levels_below := 1, levels_above := 0
    maker_buffer_frac := 0, tp_mode := TpMode.percent, tp_percent := 1/100
    sizing_mode := SizingMode.linear, skew_strength := 0
    target_inventory_ratio := 0, min_notional := 1
    quote_start := 10, base_start_quote := 0, compound := true
    dd_pause_frac := 1/2, kill_switch_frac := 3/4, symbol := "BTCUSDT" }

/-- Config with nonzero starting base holdings (4500 quote at the hard-coded
45000 price gives 1/10 base) and a small tick. -/
def cfgC3 : Config :=
  { mode := GridMode.percent, step_percent := 1/4, atr_window := 10, atr_k := 1
    tick_size := 1/1000, qty_step := 4, levels_below := 1, levels_above := 0
    maker_buffer_frac := 0, tp_mode := TpMode.percent, tp_percent := 1/100
    sizing_mode := SizingMode.linear, skew_strength := 0
    target_inventory_ratio := 0, min_notional := 1
    quote_start := 10, base_start_quote := 4500, compound := true
    dd_pause_frac := 1/2, kill_switch_frac := 3/4, symbol := "BTCUSDT" }

/-- Config whose two grid levels 100 and 100.4 share the normalized level key
100 while their maker-buffered order prices normalize to the distinct ticks
99 and 100, evading the duplicate-order check. -/
def cfgC6 : Config :=
  { mode := GridMode.percent, step_percent := 1/101, atr_window := 10, atr_k := 1
    tick_size := 1, qty_step := 1/1000, levels_below := 1, levels_above := 0
    maker_buffer_frac := 3/500, tp_mode := TpMode.percent, tp_percent := 1/100
    sizing_mode := SizingMode.linear, skew_strength := 0
    target_inventory_ratio := 0, min_notional := 1
    quote_start := 10000, base_start_quote := 0, compound := true
    dd_pause_frac := 1/2, kill_switch_frac := 3/4, symbol := "BTCUSDT" }

/-- State used to witness the sell-fill round-trip: one active SELL order
`ext "TP1"` linked as take-profit of a position bought at 100. -/
def sC5 : GridStrategy :=
  { config := cfgC1
    cash := 1000
    base_holdings := 3
    active_orders :=
      [(OrderId.ext "TP1",
        { id := OrderId.ext "TP1", symbol := "BTCUSDT", side := OrderType.SELL
          price := 102, quantity := 3, status := OrderStatus.NEW
          level_key := none })]
    positions :=
      [(key8 100,
        { level_price := 100, quantity := 3, buy_price := 100
          tp_price := some 102, tp_order_id := some (OrderId.ext "TP1") })]
    total_pnl := 0
    realized_pnl := 0
    max_equity := 1300
    max_drawdown := 0
    price_history := [] }

/-- State in mild drawdown (equity 9000 against high-water mark 10000, i.e.
10% > pause 5%, ≤ kill 30%), used to witness the paused-state behaviour. -/
def sC4 : GridStrategy :=
  { config := cfgC1
    cash := 9000
    base_holdings := 0
    active_orders := []
    positions := []
    total_pnl := 0
    realized_pnl := 0
    max_equity := 10000
    max_drawdown := 0
    price_history := [] }

/-- Config in ATR mode with window 3 and multiplier 5. -/
def cfgC8 : Config :=
  { mode := GridMode.atr, step_percent := 1/250, atr_window := 3, atr_k := 5
    tick_size := 1, qty_step := 1/1000, levels_below := 3, levels_above := 0
    maker_buffer_frac := 1/2000, tp_mode := TpMode.step, tp_percent := 1/100
    sizing_mode := SizingMode.linear, skew_strength := 0
    target_inventory_ratio := 0, min_notional := 1
    quote_start := 10000, base_start_quote := 0, compound := true
    dd_pause_frac := 1/20, kill_switch_frac := 3/10, symbol := "BTCUSDT" }

/-- ATR-mode state with a full price window `[1, 2, 4]`. -/
def sC8 : GridStrategy :=
  { GridStrategy.init cfgC8 with price_history := [1, 2, 4] }

/-- An engine-driving event: a market tick (`step_book`) or a reported fill
(`on_order_filled`). -/
inductive Ev where
  | tick : ℚ → ℚ → ℚ → Ev
  | fill : OrderId → ℚ → ℚ → Ev
deriving DecidableEq, Repr

/-- Apply one event to the engine state. -/
def applyEv (s : GridStrategy) : Ev → GridStrategy
  | Ev.tick p b a => (step_book s p b a).1
  | Ev.fill oid fp fq => (on_order_filled s oid fp fq).1

/-- Apply a sequence of events to the engine state. -/
def applyEvs : GridStrategy → List Ev → GridStrategy
  | s, [] => s
  | s, e :: es => applyEvs (applyEv s e) es

/-- An event is key-fresh when it is a tick, or a fill that is unknown, a
SELL, or a BUY whose effective level key is unoccupied. -/
def evKeyFresh (s : GridStrategy) : Ev → Bool
  | Ev.tick _ _ _ => true
  | Ev.fill oid fp fq => fillKeyFresh s (oid, fp, fq)

/-- Every event of the trace is key-fresh at the state it is applied to. -/
def freshEvTrace : GridStrategy → List Ev → Bool
  | _, [] => true
  | s, e :: es => evKeyFresh s e && freshEvTrace (applyEv s e) es

/-! Theorems. -/

/-- `on_order_filled` never changes the configuration snapshot. -/
lemma on_order_filled_config (s : GridStrategy) (oid : OrderId) (fp fq : ℚ) :
    (on_order_filled s oid fp fq).1.config = s.config := by
  unfold on_order_filled
  cases h : dictGet oid s.active_orders with
  | none => rfl
  | some o =>
    simp only
    split
    · unfold handle_buy_fill
      rfl
    · unfold handle_sell_fill
      cases hf : findTp o.id s.positions with
      | none => rfl
      | some e =>
        simp only
        split
        · rfl
        · rfl

/-- The placement loop only adds to the active-order map: configuration,
cash, base holdings and positions are untouched. -/
lemma placeLoop_frame (cp : ℚ) (ls : List ℚ) :
    ∀ (s : GridStrategy) (i : ℕ),
      (placeLoop cp s i ls).1.config = s.config ∧
      (placeLoop cp s i ls).1.cash = s.cash ∧
      (placeLoop cp s i ls).1.base_holdings = s.base_holdings ∧
      (placeLoop cp s i ls).1.positions = s.positions ∧
      (placeLoop cp s i ls).1.max_equity = s.max_equity := by
  induction ls with
  | nil => intro s i; exact ⟨rfl, rfl, rfl, rfl, rfl⟩
  | cons l rest ih =>
    intro s i
    unfold placeLoop
    split
    · exact ih s (i + 1)
    · split
      · exact ih _ (i + 1)
      · exact ih s (i + 1)

/-- `step_book` never changes cash, base holdings or positions, nor the
configuration snapshot. -/
lemma step_book_frame (s : GridStrategy) (p b a : ℚ) :
    (step_book s p b a).1.config = s.config ∧
    (step_book s p b a).1.cash = s.cash ∧
    (step_book s p b a).1.base_holdings = s.base_holdings ∧
    (step_book s p b a).1.positions = s.positions := by
  simp only [step_book]
  split
  · exact ⟨rfl, rfl, rfl, rfl⟩
  · split
    · exact ⟨rfl, rfl, rfl, rfl⟩
    · split
      · exact ⟨(placeLoop_frame _ _ _ _).1, (placeLoop_frame _ _ _ _).2.1,
               (placeLoop_frame _ _ _ _).2.2.1, (placeLoop_frame _ _ _ _).2.2.2.1⟩
      · exact ⟨(placeLoop_frame _ _ _ _).1, (placeLoop_frame _ _ _ _).2.1,
               (placeLoop_frame _ _ _ _).2.2.1, (placeLoop_frame _ _ _ _).2.2.2.1⟩

/-- C1: at a state whose drawdown 1/2 exceeds the kill-switch threshold 3/10,
`step_book` emits no liquidation action set: it returns empty `place_orders`
and `cancel_orders` and only a pause message, leaving the open position and
the active order in place. The halted-state liquidation required by the spec
is absent from the code (the kill branch is shadowed by the pause branch and
contains only a message). -/
theorem C1_halted_no_liquidation :
    cfgC1.kill_switch_frac <
      (sC1.max_equity - (sC1.cash + sC1.base_holdings * 100)) / sC1.max_equity ∧
    (step_book sC1 100 100 100).2.place_orders = [] ∧
    (step_book sC1 100 100 100).2.cancel_orders = [] ∧
    (step_book sC1 100 100 100).2.messages = [Msg.pause (1/2)] ∧
    (step_book sC1 100 100 100).1.active_orders = sC1.active_orders ∧
    (step_book sC1 100 100 100).1.positions = sC1.positions := by
  decide

/-- C2 counterexample: from a fresh engine with 10 cash, `step_book` admits and
places a BUY order of quantity 4 at price 3 (the unrounded position size 9
passes the cash check), and the fill of that very order at its own price and
quantity drives cash to -2 < 0. -/
theorem C2_cash_negative_after_fill :
    (step_book (GridStrategy.init cfgC2) 4 4 4).2.place_orders.map
        (fun o => (o.id, o.price, o.quantity)) =
      [(OrderId.buyId 300 0, (3:ℚ), (4:ℚ))] ∧
    (GridStrategy.init cfgC2).cash = 10 ∧
    ((on_order_filled (step_book (GridStrategy.init cfgC2) 4 4 4).1
        (OrderId.buyId 300 0) 3 4).1).cash = -2 := by
  decide

/-- C3 counterexample: a freshly constructed engine with
`base_start_quote = 4500` already violates the conservation claim after the
empty sequence of fills: `base_holdings = 1/10` while the positions sum to 0,
a discrepancy far beyond the tick size 1/1000. -/
theorem C3_conservation_fails_at_init :
    (applyFills (GridStrategy.init cfgC3) []).base_holdings = 1/10 ∧
    sumPositions (applyFills (GridStrategy.init cfgC3) []) = 0 ∧
    cfgC3.tick_size < |(1:ℚ)/10 - 0| := by
  decide

/-- C6 counterexample: after two `step_book` ticks at prices 101 and 101.404,
the engine holds two distinct active BUY orders whose `level_key` fields are
both `key8 100`: the duplicate check compares maker-buffered order prices
(99 vs 100, one tick apart), not normalized level keys. -/
theorem C6_duplicate_level_key :
    ((step_book (step_book (GridStrategy.init cfgC6) 101 101 101).1
        (25351/250) (25351/250) (25351/250)).1.active_orders.map
        (fun e => (e.1, e.2.side, e.2.level_key))) =
      [(OrderId.buyId 10000 0, OrderType.BUY, some 10000000000),
       (OrderId.buyId 10040 1, OrderType.BUY, some 10000000000)] ∧
    OrderId.buyId (10000:ℤ) 0 ≠ OrderId.buyId 10040 1 := by
  decide

/-- C9: a fill reported for an order id absent from the active-order map
leaves the entire engine state (cash, baseHoldings, realizedPnl, totalPnl,
order map, position map) unchanged and emits only the unknown-order
diagnostic; the embedding is a total function, so no exception escapes. -/
theorem C9_unknown_fill_noop (s : GridStrategy) (oid : OrderId) (fp fq : ℚ)
    (h : dictGet oid s.active_orders = none) :
    (on_order_filled s oid fp fq).1 = s ∧
    (on_order_filled s oid fp fq).2 = [Msg.unknownOrder oid] := by
  unfold on_order_filled
  rw [h]
  exact ⟨rfl, rfl⟩

/-- Witness for C9: a fill for the never-issued id `ghost` on a fresh engine. -/
theorem C9_unknown_fill_noop_witness :
    (on_order_filled (GridStrategy.init cfgC2) (OrderId.ext "ghost") 5 1).1 =
      GridStrategy.init cfgC2 ∧
    (on_order_filled (GridStrategy.init cfgC2) (OrderId.ext "ghost") 5 1).2 =
      [Msg.unknownOrder (OrderId.ext "ghost")] :=
  C9_unknown_fill_noop (GridStrategy.init cfgC2) (OrderId.ext "ghost") 5 1 rfl

/-- C10: `get_status` reports equity as `cash + baseHoldings * 45000` and the
drawdown from that fixed-price equity; the reported equity is invariant under
any `step_book` call, hence independent of every price ever passed to
`step_book`, and changes only when cash or base holdings change. -/
theorem C10_status_fixed_price (s : GridStrategy) :
    (get_status s).equity = s.cash + s.base_holdings * 45000 ∧
    (get_status s).drawdown =
      (s.max_equity - (s.cash + s.base_holdings * 45000)) / s.max_equity ∧
    (∀ p b a : ℚ,
      (get_status (step_book s p b a).1).equity = (get_status s).equity) ∧
    (∀ s' : GridStrategy, s'.cash = s.cash → s'.base_holdings = s.base_holdings →
      (get_status s').equity = (get_status s).equity) := by
  refine ⟨rfl, rfl, ?_, ?_⟩
  · intro p b a
    have h := step_book_frame s p b a
    simp only [get_status, h.2.1, h.2.2.1]
  · intro s' hc hb
    simp only [get_status, hc, hb]

/-- Witness for C10 at a concrete state and price. -/
theorem C10_status_fixed_price_witness :
    (get_status sC4).equity = 9000 ∧
    (get_status (step_book sC4 123 123 123).1).equity = (get_status sC4).equity := by
  refine ⟨by decide, ?_⟩
  exact (C10_status_fixed_price sC4).2.2.1 123 123 123

/-- C4: when the drawdown computed by `step_book` lies strictly above the
pause threshold (and at or below the kill threshold), the returned batch has
no `place_orders`, carries the pause message, and the active-order map, the
position map, cash and base holdings are unchanged. -/
theorem C4_pause_freezes (s : GridStrategy) (p b a : ℚ)
    (hp : s.config.dd_pause_frac <
          (s.max_equity - (s.cash + s.base_holdings * p)) / s.max_equity)
    (hk : (s.max_equity - (s.cash + s.base_holdings * p)) / s.max_equity ≤
          s.config.kill_switch_frac) :
    (step_book s p b a).2.place_orders = [] ∧
    Msg.pause ((s.max_equity - (s.cash + s.base_holdings * p)) / s.max_equity)
      ∈ (step_book s p b a).2.messages ∧
    (step_book s p b a).1.active_orders = s.active_orders ∧
    (step_book s p b a).1.positions = s.positions ∧
    (step_book s p b a).1.cash = s.cash ∧
    (step_book s p b a).1.base_holdings = s.base_holdings := by
  simp only [step_book]
  rw [if_pos hp]
  exact ⟨rfl, List.mem_singleton.2 rfl, rfl, rfl, rfl, rfl⟩

/-- Witness for C4: equity 9000 against high-water mark 10000 gives a 10%
drawdown, above the 5% pause threshold and below the 30% kill threshold. -/
theorem C4_pause_freezes_witness :
    (step_book sC4 100 100 100).2.place_orders = [] ∧
    Msg.pause ((sC4.max_equity - (sC4.cash + sC4.base_holdings * 100)) / sC4.max_equity)
      ∈ (step_book sC4 100 100 100).2.messages ∧
    (step_book sC4 100 100 100).1.cash = sC4.cash := by
  have h := C4_pause_freezes sC4 100 100 100 (by decide) (by decide)
  exact ⟨h.1, h.2.1, h.2.2.2.2.1⟩

/-- C7: across any `step_book` call the high-water mark never decreases, and
(for the ordinary configurations with nonnegative thresholds and a positive
current mark) it is updated every tick to the maximum of its old value and the
current equity `cash + baseHoldings * price`. -/
theorem C7_watermark_monotone (s : GridStrategy) (p b a : ℚ)
    (h1 : 0 ≤ s.config.dd_pause_frac) (h2 : 0 ≤ s.config.kill_switch_frac)
    (h3 : 0 < s.max_equity) :
    (step_book s p b a).1.max_equity =
      max s.max_equity (s.cash + s.base_holdings * p) ∧
    s.max_equity ≤ (step_book s p b a).1.max_equity := by
  have key : (step_book s p b a).1.max_equity =
      max s.max_equity (s.cash + s.base_holdings * p) := by
    simp only [step_book]
    split
    · rename_i hdd
      have hlt : s.cash + s.base_holdings * p < s.max_equity := by
        by_contra hge
        have : (s.max_equity - (s.cash + s.base_holdings * p)) / s.max_equity ≤ 0 :=
          div_nonpos_of_nonpos_of_nonneg (by linarith [not_lt.1 hge]) h3.le
        exact absurd (lt_of_le_of_lt h1 hdd) (not_lt.2 this)
      exact (max_eq_left hlt.le).symm
    · split
      · rename_i hdd
        have hlt : s.cash + s.base_holdings * p < s.max_equity := by
          by_contra hge
          have : (s.max_equity - (s.cash + s.base_holdings * p)) / s.max_equity ≤ 0 :=
            div_nonpos_of_nonpos_of_nonneg (by linarith [not_lt.1 hge]) h3.le
          exact absurd (lt_of_le_of_lt h2 hdd) (not_lt.2 this)
        exact (max_eq_left hlt.le).symm
      · split
        · rename_i hup
          rw [(placeLoop_frame _ _ _ _).2.2.2.2]
          exact (max_eq_right (le_of_lt hup)).symm
        · rename_i hup
          rw [(placeLoop_frame _ _ _ _).2.2.2.2]
          exact (max_eq_left (not_lt.1 hup)).symm
  exact ⟨key, key ▸ le_max_left _ _⟩

/-- Witness for C7 on a fresh engine stepped at price 4. -/
theorem C7_watermark_monotone_witness :
    (step_book (GridStrategy.init cfgC2) 4 4 4).1.max_equity =
      max (GridStrategy.init cfgC2).max_equity
        ((GridStrategy.init cfgC2).cash + (GridStrategy.init cfgC2).base_holdings * 4) ∧
    (GridStrategy.init cfgC2).max_equity ≤
      (step_book (GridStrategy.init cfgC2) 4 4 4).1.max_equity :=
  C7_watermark_monotone (GridStrategy.init cfgC2) 4 4 4
    (by decide) (by decide) (by decide)

/-- C5: when a SELL fill at price `P + step` and quantity `Q` is matched (via
`tp_order_id`) to a position bought at `P`, the handler books profit
`(fillPrice - buyPrice) * qty = step * Q` into both `realized_pnl` and
`total_pnl`. -/
theorem C5_roundtrip_pnl (s : GridStrategy) (oid : OrderId) (o : Order)
    (e : ℤ × Position) (P step Q : ℚ)
    (ho : dictGet oid s.active_orders = some o)
    (hside : o.side = OrderType.SELL)
    (hfind : findTp o.id s.positions = some e)
    (hbp : e.2.buy_price = P) :
    (on_order_filled s oid (P + step) Q).1.realized_pnl =
      s.realized_pnl + step * Q ∧
    (on_order_filled s oid (P + step) Q).1.total_pnl =
      s.total_pnl + step * Q := by
  unfold on_order_filled
  rw [ho]
  simp only
  rw [if_neg (by simp [hside])]
  unfold handle_sell_fill
  simp only
  rw [hfind]
  simp only
  split
  · constructor
    · show s.realized_pnl + (P + step - e.2.buy_price) * Q = s.realized_pnl + step * Q
      rw [hbp]; ring
    · show s.total_pnl + (P + step - e.2.buy_price) * Q = s.total_pnl + step * Q
      rw [hbp]; ring
  · constructor
    · show s.realized_pnl + (P + step - e.2.buy_price) * Q = s.realized_pnl + step * Q
      rw [hbp]; ring
    · show s.total_pnl + (P + step - e.2.buy_price) * Q = s.total_pnl + step * Q
      rw [hbp]; ring

/-- Witness for C5: buy price 100, step 2, quantity 3 on state `sC5`. -/
theorem C5_roundtrip_pnl_witness :
    (on_order_filled sC5 (OrderId.ext "TP1") (100 + 2) 3).1.realized_pnl =
      sC5.realized_pnl + 2 * 3 ∧
    (on_order_filled sC5 (OrderId.ext "TP1") (100 + 2) 3).1.total_pnl =
      sC5.total_pnl + 2 * 3 :=
  C5_roundtrip_pnl sC5 (OrderId.ext "TP1") _ _ 100 2 3 rfl rfl rfl rfl

/-- C2 (amended): what admission control actually enforces before placing an
order is `position_size ≤ cash` for the unrounded position size; this bound
is what the fourth check of `can_place_buy` guarantees. -/
theorem C2_admission_checks_cash (s : GridStrategy) (level p : ℚ)
    (h : can_place_buy s level p = true) :
    calculate_position_size s 0 p ≤ s.cash := by
  simp only [can_place_buy] at h
  split at h
  · exact Bool.noConfusion h
  · split at h
    · exact Bool.noConfusion h
    · split at h
      · exact Bool.noConfusion h
      · split at h
        · exact Bool.noConfusion h
        · rename_i h4
          exact not_lt.1 h4

/-- Witness for C2 (amended): the admitted order of the counterexample trace
indeed has position size 9 within the available cash 10. -/
theorem C2_admission_checks_cash_witness :
    calculate_position_size (GridStrategy.init cfgC2) 0 4 ≤
      (GridStrategy.init cfgC2).cash :=
  C2_admission_checks_cash (GridStrategy.init cfgC2) 3 4 (by decide)

/-- `lastN n l` keeps exactly `n` elements when `0 < n ≤ l.length`. -/
lemma lastN_length (n : ℕ) (l : List ℚ) (h : n ≤ l.length) (hn : n ≠ 0) :
    (lastN n l).length = n := by
  unfold lastN
  rw [if_neg hn, List.length_drop]
  omega

/-- `absDiffs` has one entry per consecutive pair. -/
lemma absDiffs_length (l : List ℚ) : (absDiffs l).length = l.length - 1 := by
  unfold absDiffs
  rw [List.length_map, List.length_zip, List.length_tail, List.length_dropLast,
    Nat.min_self]

/-- C8: the grid-step computation returns `price * stepPercent` in percent
mode; in ATR mode it falls back to `price * 0.004` when fewer than `window`
samples exist, and otherwise returns the mean absolute consecutive difference
over the last `window` samples (a mean of `window - 1` differences) times
`atrK`. -/
theorem C8_grid_step_modes (s : GridStrategy) (p : ℚ) :
    (s.config.mode = GridMode.percent →
      get_grid_step s p = p * s.config.step_percent) ∧
    (s.config.mode = GridMode.atr →
      s.price_history.length < s.config.atr_window →
      get_grid_step s p = p * (4/1000)) ∧
    (s.config.mode = GridMode.atr →
      s.config.atr_window ≤ s.price_history.length →
      2 ≤ s.config.atr_window →
      (absDiffs (lastN s.config.atr_window s.price_history)).length =
        s.config.atr_window - 1 ∧
      get_grid_step s p =
        ((absDiffs (lastN s.config.atr_window s.price_history)).sum /
          ((s.config.atr_window : ℚ) - 1)) * s.config.atr_k) := by
  refine ⟨fun hm => ?_, fun hm hlen => ?_, fun hm hlen hw => ?_⟩
  · simp only [get_grid_step, hm]
  · simp only [get_grid_step, hm, if_pos hlen]
  · have hlen' : (lastN s.config.atr_window s.price_history).length =
        s.config.atr_window :=
      lastN_length _ _ hlen (by omega)
    have hdl : (absDiffs (lastN s.config.atr_window s.price_history)).length =
        s.config.atr_window - 1 := by rw [absDiffs_length, hlen']
    refine ⟨hdl, ?_⟩
    have hne : (absDiffs (lastN s.config.atr_window s.price_history)).isEmpty
        = false := by
      cases hl : absDiffs (lastN s.config.atr_window s.price_history) with
      | nil => rw [hl] at hdl; simp at hdl; omega
      | cons x xs => rfl
    simp only [get_grid_step, hm, if_neg (not_lt.2 hlen), hne, Bool.false_eq_true,
      if_false, hdl]
    have hcast : ((s.config.atr_window - 1 : ℕ) : ℚ) =
        (s.config.atr_window : ℚ) - 1 := by
      push_cast [Nat.cast_sub (by omega : 1 ≤ s.config.atr_window)]
      ring
    rw [hcast]

/-- Witness for C8 in ATR mode: window 3, history `[1, 2, 4]`, differences
`[1, 2]`, mean `3/2`, times `atrK = 5`. -/
theorem C8_grid_step_modes_witness :
    (absDiffs (lastN sC8.config.atr_window sC8.price_history)).length =
      sC8.config.atr_window - 1 ∧
    get_grid_step sC8 7 =
      ((absDiffs (lastN sC8.config.atr_window sC8.price_history)).sum /
        ((sC8.config.atr_window : ℚ) - 1)) * sC8.config.atr_k :=
  (C8_grid_step_modes sC8 7).2.2 rfl (by decide) (by decide)

/-- Inserting under a key absent from the dict appends the binding. -/
lemma dictInsert_of_get_none {κ β : Type} [DecidableEq κ] (k : κ) (v : β)
    (l : List (κ × β)) (h : dictGet k l = none) :
    dictInsert k v l = l ++ [(k, v)] := by
  induction l with
  | nil => rfl
  | cons e es ih =>
    by_cases hk : e.1 = k
    · simp only [dictGet, if_pos hk] at h
      exact Option.noConfusion h
    · simp only [dictGet, if_neg hk] at h
      simp only [dictInsert, if_neg hk, ih h, List.cons_append]

/-- A position list without take-profit links never matches a sell fill. -/
lemma findTp_eq_none (oid : OrderId) (l : List (ℤ × Position))
    (h : ∀ e ∈ l, e.2.tp_order_id = none) : findTp oid l = none := by
  induction l with
  | nil => rfl
  | cons e es ih =>
    have he := h e (List.mem_cons_self ..)
    simp only [findTp, he]
    rw [if_neg (by simp)]
    exact ih (fun x hx => h x (List.mem_cons_of_mem _ hx))

/-- One key-fresh fill preserves conservation and the absence of
take-profit links. -/
lemma fill_preserves_inv (s : GridStrategy) (oid : OrderId) (fp fq : ℚ)
    (hc : ConsInv s) (ht : TpNone s)
    (hf : fillKeyFresh s (oid, fp, fq) = true) :
    ConsInv (on_order_filled s oid fp fq).1 ∧
    TpNone (on_order_filled s oid fp fq).1 := by
  unfold fillKeyFresh at hf
  unfold on_order_filled
  cases ho : dictGet oid s.active_orders with
  | none => exact ⟨hc, ht⟩
  | some o =>
    rw [ho] at hf
    simp only [Bool.or_eq_true, decide_eq_true_eq] at hf
    simp only
    by_cases hside : o.side = OrderType.BUY
    · rw [if_pos (by simpa using hside)]
      have hfresh : dictGet (o.level_key.getD (key8 fp)) s.positions = none := by
        rcases hf with h1 | h2
        · rw [hside] at h1; exact OrderType.noConfusion h1
        · exact h2
      unfold handle_buy_fill
      simp only
      constructor
      · unfold ConsInv sumPositions at hc ⊢
        simp only
        rw [dictInsert_of_get_none _ _ _ hfresh, List.map_append, List.sum_append]
        simp only [List.map_cons, List.map_nil, List.sum_cons, List.sum_nil]
        rw [hc]
        ring
      · intro e he
        simp only at he
        rw [dictInsert_of_get_none _ _ _ hfresh] at he
        rcases List.mem_append.1 he with h1 | h2
        · exact ht e h1
        · rw [List.mem_singleton.1 h2]
    · rw [if_neg (by simpa using hside)]
      unfold handle_sell_fill
      rw [findTp_eq_none _ _ (fun e he => ht e he)]
      exact ⟨hc, ht⟩

/-- Events never change the configuration snapshot. -/
lemma applyEvs_config (es : List Ev) :
    ∀ s : GridStrategy, (applyEvs s es).config = s.config := by
  induction es with
  | nil => intro s; rfl
  | cons e es ih =>
    intro s
    rw [applyEvs]
    rw [ih (applyEv s e)]
    cases e with
    | tick p b a => exact (step_book_frame ..).1
    | fill oid fp fq => exact on_order_filled_config ..

/-- A key-fresh event trace preserves conservation and absence of
take-profit links. -/
lemma evs_preserve_inv (es : List Ev) :
    ∀ s : GridStrategy, ConsInv s → TpNone s → freshEvTrace s es = true →
      ConsInv (applyEvs s es) ∧ TpNone (applyEvs s es) := by
  induction es with
  | nil => intro s hc ht _; exact ⟨hc, ht⟩
  | cons e es ih =>
    intro s hc ht h
    simp only [freshEvTrace, Bool.and_eq_true] at h
    obtain ⟨h1, h2⟩ := h
    have hstep : ConsInv (applyEv s e) ∧ TpNone (applyEv s e) := by
      cases e with
      | tick p b a =>
        have hf := step_book_frame s p b a
        constructor
        · unfold ConsInv sumPositions at hc ⊢
          rw [show (applyEv s (Ev.tick p b a)) = (step_book s p b a).1 from rfl,
            hf.1, hf.2.2.1, hf.2.2.2]
          exact hc
        · intro x hx
          have : (applyEv s (Ev.tick p b a)).positions = s.positions := hf.2.2.2
          exact ht x (this ▸ hx)
      | fill oid fp fq => exact fill_preserves_inv s oid fp fq hc ht h1
    exact ih _ hstep.1 hstep.2 h2

/-- C3 (amended): starting from a fresh engine and applying any sequence of
ticks and fills in which every BUY fill lands on an unoccupied level key,
base holdings equal the initial holdings `base_start_quote / 45000` plus the
total quantity of open positions (exactly, not merely within tick rounding). -/
theorem C3_conservation_with_fresh_keys (cfg : Config) (es : List Ev)
    (h : freshEvTrace (GridStrategy.init cfg) es = true) :
    (applyEvs (GridStrategy.init cfg) es).base_holdings =
      cfg.base_start_quote / 45000 +
        sumPositions (applyEvs (GridStrategy.init cfg) es) := by
  have hc : ConsInv (GridStrategy.init cfg) := by
    unfold ConsInv sumPositions GridStrategy.init
    simp
  have ht : TpNone (GridStrategy.init cfg) := by
    intro e he
    simp [GridStrategy.init] at he
  have hinv := (evs_preserve_inv es (GridStrategy.init cfg) hc ht h).1
  unfold ConsInv at hinv
  rwa [applyEvs_config, show (GridStrategy.init cfg).config = cfg from rfl] at hinv

/-- Witness for C3 (amended): place a buy order at price 4 and fill it; base
holdings 4 equal initial holdings 0 plus the open position quantity 4. -/
theorem C3_conservation_with_fresh_keys_witness :
    freshEvTrace (GridStrategy.init cfgC2)
      [Ev.tick 4 4 4, Ev.fill (OrderId.buyId 300 0) 3 4] = true ∧
    (applyEvs (GridStrategy.init cfgC2)
        [Ev.tick 4 4 4, Ev.fill (OrderId.buyId 300 0) 3 4]).base_holdings =
      cfgC2.base_start_quote / 45000 +
        sumPositions (applyEvs (GridStrategy.init cfgC2)
          [Ev.tick 4 4 4, Ev.fill (OrderId.buyId 300 0) 3 4]) :=
  ⟨by decide, C3_conservation_with_fresh_keys cfgC2 _ (by decide)⟩

/-- Members of `dictInsert k v l` come from `l` or are the new binding. -/
lemma mem_dictInsert {κ β : Type} [DecidableEq κ] (k : κ) (v : β)
    (l : List (κ × β)) (x : κ × β) (hx : x ∈ dictInsert k v l) :
    x ∈ l ∨ x = (k, v) := by
  induction l with
  | nil =>
    simp only [dictInsert] at hx
    exact Or.inr (List.mem_singleton.1 hx)
  | cons e es ih =>
    by_cases hk : e.1 = k
    · rw [dictInsert, if_pos hk] at hx
      rcases List.mem_cons.1 hx with h1 | h2
      · exact Or.inr h1
      · exact Or.inl (List.mem_cons_of_mem _ h2)
    · rw [dictInsert, if_neg hk] at hx
      rcases List.mem_cons.1 hx with h1 | h2
      · exact Or.inl (h1 ▸ List.mem_cons_self ..)
      · rcases ih h2 with h3 | h4
        · exact Or.inl (List.mem_cons_of_mem _ h3)
        · exact Or.inr h4

/-- `dictInsert` preserves `Pairwise R` when the new binding is related to
every existing entry in both directions. -/
lemma pairwise_dictInsert {κ β : Type} [DecidableEq κ]
    {R : (κ × β) → (κ × β) → Prop} (k : κ) (v : β) (l : List (κ × β))
    (hl : l.Pairwise R) (hv : ∀ x ∈ l, R x (k, v) ∧ R (k, v) x) :
    (dictInsert k v l).Pairwise R := by
  induction l with
  | nil => exact List.pairwise_singleton ..
  | cons e es ih =>
    rcases List.pairwise_cons.1 hl with ⟨he, hes⟩
    by_cases hk : e.1 = k
    · rw [dictInsert, if_pos hk]
      refine List.pairwise_cons.2 ⟨?_, hes⟩
      intro x hx
      exact (hv x (List.mem_cons_of_mem _ hx)).2
    · rw [dictInsert, if_neg hk]
      refine List.pairwise_cons.2
        ⟨?_, ih hes (fun x hx => hv x (List.mem_cons_of_mem _ hx))⟩
      intro x hx
      rcases mem_dictInsert _ _ _ _ hx with h1 | h2
      · exact he x h1
      · exact h2 ▸ (hv e (List.mem_cons_self ..)).1

/-- A successful admission check separates the new order price from every
active BUY order by at least one tick. -/
lemma can_place_buy_sep (s : GridStrategy) (level p : ℚ)
    (h : can_place_buy s level p = true) :
    ∀ e ∈ s.active_orders, e.2.side = OrderType.BUY →
      s.config.tick_size ≤
        |e.2.price -
          normalize_price s.config (level * (1 - s.config.maker_buffer_frac))| := by
  intro e he hside
  simp only [can_place_buy] at h
  split at h
  · exact Bool.noConfusion h
  · split at h
    · exact Bool.noConfusion h
    · rename_i hany
      refine not_lt.1 (fun hlt => hany ?_)
      exact List.any_eq_true.2
        ⟨e, he, by simp only [Bool.and_eq_true, decide_eq_true_eq]; exact ⟨hside, hlt⟩⟩

/-- The placement loop preserves buy-order price separation. -/
lemma placeLoop_buySep (cp : ℚ) (ls : List ℚ) :
    ∀ (s : GridStrategy) (i : ℕ), BuySep s → BuySep (placeLoop cp s i ls).1 := by
  induction ls with
  | nil => intro s i h; exact h
  | cons l rest ih =>
    intro s i h
    unfold placeLoop
    split
    · exact ih s (i + 1) h
    · split
      · rename_i hcan
        apply ih
        unfold BuySep at h ⊢
        simp only
        refine pairwise_dictInsert _ _ _ h (fun x hx => ?_)
        have hsep := can_place_buy_sep s l cp hcan x hx
        constructor
        · intro hxb _
          exact hsep hxb
        · intro _ hxb
          rw [abs_sub_comm]
          exact hsep hxb
      · exact ih s (i + 1) h

/-- C6 (amended): `step_book` preserves the invariant that any two distinct
active BUY orders rest at normalized prices at least one tick apart (the
admission check compares maker-buffered order prices, not level keys). -/
theorem C6_buy_price_separation (s : GridStrategy) (p b a : ℚ)
    (h : BuySep s) : BuySep (step_book s p b a).1 := by
  simp only [step_book]
  split
  · exact h
  · split
    · exact h
    · split
      · exact placeLoop_buySep _ _ _ _ h
      · exact placeLoop_buySep _ _ _ _ h

/-- Witness for C6 (amended) on a fresh engine after one tick. -/
theorem C6_buy_price_separation_witness :
    BuySep (step_book (GridStrategy.init cfgC6) 101 101 101).1 :=
  C6_buy_price_separation (GridStrategy.init cfgC6) 101 101 101 List.Pairwise.nil

end MexcGrid
